import Mathlib

/-!
Verification development for the `simple_data_mapping` repository
(`src/main.py`, `src/models.py`, `src/util.py`).

The Python code is shallowly embedded below.  JSON payloads (and the Python
values produced by `json` parsing) are modelled by `JVal`; JSON objects /
Python dicts by association lists with last-write-wins semantics; fallible
Python code (code that may raise) by `Except Err`; `Optional` results by
`Option`.  Network I/O is abstracted by passing the body an endpoint would
deliver as an explicit argument (`none` = the fetch failed).
-/

namespace SimpleDataMapping

/-- Kinds of Python exceptions the embedded code can raise.  Only the kind is
tracked, since the source never catches specific exceptions inside the
section-mapping pipeline: any raise aborts the enclosing item resolution. -/
inductive Err where
  | keyError
  | typeError
  | valueError
  | validationError
deriving DecidableEq, Repr

/-- A JSON value as parsed into a Python value by `json` or by the aiohttp
`response.json()`.  Python `None` (JSON `null`) is `jnull`; numbers are
modelled as integers (no claim depends on float behaviour). -/
inductive JVal where
  | jnull
  | jbool (b : Bool)
  | jnum (n : Int)
  | jstr (s : String)
  | jarr (elems : List JVal)
  | jobj (fields : List (String × JVal))

mutual

/-- Structural equality on parsed JSON values, mirroring Python `==` as used
on dict keys.  (The Python cross-type numeric equalities such as `True == 1`
are not modelled; media identifiers are strings per the payload contract.) -/
def jvalBeq : JVal → JVal → Bool
  | .jnull, .jnull => true
  | .jbool a, .jbool b => a == b
  | .jnum a, .jnum b => a == b
  | .jstr a, .jstr b => a == b
  | .jarr a, .jarr b => jvalListBeq a b
  | .jobj a, .jobj b => jvalObjBeq a b
  | _, _ => false

/-- Elementwise `jvalBeq` on lists. -/
def jvalListBeq : List JVal → List JVal → Bool
  | [], [] => true
  | a :: as, b :: bs => jvalBeq a b && jvalListBeq as bs
  | _, _ => false

/-- Entrywise equality on object field lists. -/
def jvalObjBeq : List (String × JVal) → List (String × JVal) → Bool
  | [], [] => true
  | (k, v) :: as, (k2, v2) :: bs => k == k2 && jvalBeq v v2 && jvalObjBeq as bs
  | _, _ => false

end

/-- A Python dict with string keys, as an association list.  Lookup returns
the first binding, so prepending a binding models overwriting assignment. -/
abbrev Dict := List (String × JVal)

/-- Subscript lookup `d[k]` viewed totally: `none` models a `KeyError`. -/
def dgetOpt (d : Dict) (k : String) : Option JVal :=
  (d.find? (fun p => decide (p.1 = k))).map (fun p => p.2)

/-- Defaulting lookup `d.get(k)`: Python returns `None` both when the key is
absent and when the stored value is `null`, so both collapse to `jnull`. -/
def dget (d : Dict) (k : String) : JVal :=
  (dgetOpt d k).getD JVal.jnull

/-- Merging `h.update(val)`: the result looks up the bindings of `val` first,
so keys of `val` take precedence over keys of `h`, exactly like the Python
`dict.update`. -/
def dupdate (h val : Dict) : Dict :=
  val ++ h

theorem dgetOpt_dupdate (h val : Dict) (k : String) :
    dgetOpt (dupdate h val) k = (dgetOpt val k).orElse (fun _ => dgetOpt h k) := by
  unfold dgetOpt dupdate
  rw [List.find?_append]
  cases List.find? (fun p => decide (p.1 = k)) val <;> simp [Option.orElse]

/-- A naive local date-time, mirroring the fields `datetime.strptime` fills in
for the format strings the repository uses (no timezone, no microseconds). -/
structure DateTime where
  year : Nat
  month : Nat
  day : Nat
  hour : Nat
  minute : Nat
  second : Nat
deriving DecidableEq, Repr

/-- ASCII digit test, modelling the regex character class `\d` of the
`_strptime` patterns.  (CPython would additionally accept non-ASCII Unicode
decimal digits; no payload or claim involves them, and all conclusions drawn
below also hold for CPython because a Unicode digit is still neither `-` nor
a separator nor `T`.) -/
def isDigitChar (c : Char) : Bool :=
  48 ≤ c.toNat && c.toNat ≤ 57

def digitVal (c : Char) : Option Nat :=
  if isDigitChar c then some (c.toNat - 48) else none

/-- Directive `%Y` of the CPython `_strptime`: exactly four digit
characters. -/
def fourDigit : List Char → List (Nat × List Char)
  | a :: b :: c :: d :: rest =>
    match digitVal a, digitVal b, digitVal c, digitVal d with
    | some w, some x, some y, some z => [(1000 * w + 100 * x + 10 * y + z, rest)]
    | _, _, _, _ => []
  | _ => []

/-- The two-digit alternatives of a `_strptime` numeric directive: two digit
characters whose value lies in `[lo, hi]` (e.g. the `%m` regex
`1[0-2]|0[1-9]` is
exactly the two-digit strings with value in `[1, 12]`). -/
def twoDigit (lo hi : Nat) : List Char → List (Nat × List Char)
  | a :: b :: rest =>
    match digitVal a, digitVal b with
    | some x, some y =>
      if lo ≤ 10 * x + y ∧ 10 * x + y ≤ hi then [(10 * x + y, rest)] else []
    | _, _ => []
  | _ => []

/-- The one-digit fallback alternative of a numeric directive. -/
def oneDigit (lo hi : Nat) : List Char → List (Nat × List Char)
  | a :: rest =>
    match digitVal a with
    | some x => if lo ≤ x ∧ x ≤ hi then [(x, rest)] else []
    | none => []
  | [] => []

/-- A numeric directive: the regex tries its two-digit alternatives before the
one-digit one, and the resulting candidate list is in backtracking order. -/
def numField (lo2 hi2 lo1 hi1 : Nat) (cs : List Char) : List (Nat × List Char) :=
  twoDigit lo2 hi2 cs ++ oneDigit lo1 hi1 cs

/-- A literal character of the format string. -/
def expectChar (c : Char) : List Char → List (List Char)
  | x :: rest => if x = c then [rest] else []
  | [] => []

/-- All full matches of the regex `_strptime` builds for the format
`%Y-%m-%d-%H<sep>%M<sep>%S`, in backtracking (leftmost-alternative-first)
order.  Directive bounds follow CPython: `%m` `1..12`, `%d` `1..31`,
`%H` `0..23`, `%M` `0..59`, `%S` `0..61`; one-digit fallbacks `[1-9]` for
`%m`/`%d` and `\d` for the time fields. -/
def strptimeMatches (cs : List Char) (sep : Char) :
    List (Nat × Nat × Nat × Nat × Nat × Nat) :=
  (fourDigit cs).flatMap (fun p1 =>
  (expectChar '-' p1.2).flatMap (fun r2 =>
  (numField 1 12 1 9 r2).flatMap (fun p3 =>
  (expectChar '-' p3.2).flatMap (fun r4 =>
  (numField 1 31 1 9 r4).flatMap (fun p5 =>
  (expectChar '-' p5.2).flatMap (fun r6 =>
  (numField 0 23 0 9 r6).flatMap (fun p7 =>
  (expectChar sep p7.2).flatMap (fun r8 =>
  (numField 0 59 0 9 r8).flatMap (fun p9 =>
  (expectChar sep p9.2).flatMap (fun r10 =>
  (numField 0 61 0 9 r10).flatMap (fun p11 =>
  if p11.2 = [] then [(p1.1, p3.1, p5.1, p7.1, p9.1, p11.1)] else [])))))))))))

def isLeap (y : Nat) : Bool :=
  (y % 4 = 0 && y % 100 ≠ 0) || y % 400 = 0

def daysInMonth (y m : Nat) : Nat :=
  if m = 2 then (if isLeap y then 29 else 28)
  else if m = 4 ∨ m = 6 ∨ m = 9 ∨ m = 11 then 30 else 31

/-- Models `util.to_datetime(datetime_str, sep)`, i.e.
`datetime.strptime(datetime_str, f"%Y-%m-%d-%H{sep}%M{sep}%S")`.
`none` models the `ValueError` raised on a failed match, and also the
`ValueError` the final `datetime(...)` constructor raises when the regex
accepted an out-of-range combination (day past month end, year 0, or
second 60/61). -/
def to_datetime (s : String) (sep : Char) : Option DateTime :=
  match (strptimeMatches s.toList sep).head? with
  | none => none
  | some (y, mo, da, h, mi, se) =>
    if 1 ≤ y ∧ da ≤ daysInMonth y mo ∧ se ≤ 59 then
      some (DateTime.mk y mo da h mi se)
    else
      none

/-- The observable outcome of one HTTP GET, abstracting the transport:
either the request itself raised, or a response with a status code arrived
and its body later parses to a `JVal` or fails to parse. -/
inductive HttpOutcome where
  | transportError
  | status (code : Nat) (body : Except Err JVal)

/-- Models `util.fetch`: `session.get` and `raise_for_status()` sit inside a
`try` whose handlers catch every `Exception` and yield `None`; but
`response.json()` sits in the `else` block, outside the `try`, so a body
parse error propagates to the caller (modelled by `Except.error`).
`raise_for_status` raises for status codes `≥ 400`. -/
def fetch (o : HttpOutcome) : Except Err (Option JVal) :=
  match o with
  | .transportError => .ok none
  | .status code body =>
    if 400 ≤ code then .ok none
    else body.map some

/-- The six section variants of `models.py` (the discriminator strings of
`Article._map_section`). -/
inductive Variant where
  | text
  | title
  | lead
  | header
  | image
  | media
deriving DecidableEq, Repr

/-- Models `Article._map_section(stype)`: the dictionary lookup keyed by the
six known discriminator strings.  Any other string — and any non-string
value, since no dict key equals it — makes `mapper.get` return `None`,
modelled by `none`. -/
def map_section : JVal → Option Variant
  | .jstr "text" => some .text
  | .jstr "media" => some .media
  | .jstr "image" => some .image
  | .jstr "lead" => some .lead
  | .jstr "title" => some .title
  | .jstr "header" => some .header
  | _ => none

/-- The `fields` lists of `Article._map_section`, i.e. exactly the attribute
names the field-copying loop of `_extract_sections` supplies to the pydantic
constructor of each variant. -/
def section_fields : Variant → List String
  | .text => ["type", "text"]
  | .media => ["type", "id", "url", "thumbnail", "caption", "author",
      "publication_date", "modification_date", "duration"]
  | .image => ["type", "url", "alt", "caption", "source"]
  | .lead => ["type", "text"]
  | .title => ["type", "text"]
  | .header => ["type", "level", "text"]

/-- A validated section instance: one constructor per pydantic model of
`models.py`.  The `type` literal field is omitted: the variant itself was
chosen from the very value the literal is validated against, so that
validation cannot fail and carries no information. -/
inductive Sect where
  | text (text : String)
  | title (text : String)
  | lead (text : String)
  | header (level : Int) (text : String)
  | image (url : String) (alt : Option String) (caption : Option String)
      (source : Option String)
  | media (id : String) (url : String) (thumbnail : Option String)
      (caption : Option String) (author : Option String)
      (publication_date : DateTime) (modification_date : Option DateTime)
      (duration : Option Int)
deriving DecidableEq, Repr

/-- The variant a constructed section instance belongs to. -/
def sectVariant : Sect → Variant
  | .text _ => .text
  | .title _ => .title
  | .lead _ => .lead
  | .header _ _ => .header
  | .image _ _ _ _ => .image
  | .media _ _ _ _ _ _ _ _ => .media

/-- Coercion a pydantic v1 `str` field performs on its input: strings pass
through, numbers and bools are stringified, everything else is rejected. -/
def coerceStr : JVal → Option String
  | .jstr s => some s
  | .jnum n => some (toString n)
  | .jbool b => some (if b then "True" else "False")
  | _ => none

/-- Coercion a pydantic v1 `int` field performs: ints pass through, bools are
their numeric value, integral strings are parsed, everything else rejected. -/
def coerceInt : JVal → Option Int
  | .jnum n => some n
  | .jbool b => some (if b then 1 else 0)
  | .jstr s => s.toInt?
  | _ => none

/-- A required `str` field: `jnull` covers both an absent key and a `null`
value, which pydantic rejects as a missing required field. -/
def reqStr (v : JVal) : Except Err String :=
  match coerceStr v with
  | some s => .ok s
  | none => .error .validationError

/-- An optional `str` field. -/
def optStr (v : JVal) : Except Err (Option String) :=
  match v with
  | .jnull => .ok none
  | v =>
    match coerceStr v with
    | some s => .ok (some s)
    | none => .error .validationError

/-- A required `int` field. -/
def reqInt (v : JVal) : Except Err Int :=
  match coerceInt v with
  | some n => .ok n
  | none => .error .validationError

/-- An optional `int` field. -/
def optInt (v : JVal) : Except Err (Option Int) :=
  match v with
  | .jnull => .ok none
  | v =>
    match coerceInt v with
    | some n => .ok (some n)
    | none => .error .validationError

/-- Whether a string passes as a pydantic `HttpUrl`: the scheme and length
checks are modelled; the finer URL grammar is abstracted away (no claim
depends on it). -/
def isHttpUrl (s : String) : Bool :=
  (s.startsWith "http://" || s.startsWith "https://") && s.length ≤ 2083

/-- A required `HttpUrl` field. -/
def reqUrl (v : JVal) : Except Err String :=
  match v with
  | .jstr s => if isHttpUrl s then .ok s else .error .validationError
  | _ => .error .validationError

/-- An optional `HttpUrl` field. -/
def optUrl (v : JVal) : Except Err (Option String) :=
  match v with
  | .jnull => .ok none
  | .jstr s => if isHttpUrl s then .ok (some s) else .error .validationError
  | _ => .error .validationError

/-- The `modification_date: Optional[datetime]` field of `MediaSection`.
Media payloads carry `mod_date`, never `modification_date` (spec section 6),
so the copied value is always absent in practice; a present non-null value
is modelled as a validation failure (the pydantic datetime coercions are
abstracted away, no claim exercises them). -/
def optDatetimeAbsent (v : JVal) : Except Err (Option DateTime) :=
  match v with
  | .jnull => .ok none
  | _ => .error .validationError

/-- The `publication_date` entry of the field-copying loop in
`Article._extract_sections` (line 303): `to_datetime(header["pub_date"],
sep=";")`.  The subscript raises `KeyError` when `pub_date` is absent,
`strptime` raises `TypeError` on a non-string and `ValueError` on a
malformed string. -/
def parsePubDate (h : Dict) : Except Err DateTime :=
  match dgetOpt h "pub_date" with
  | none => .error .keyError
  | some (.jstr s) =>
    match to_datetime s ';' with
    | some d => .ok d
    | none => .error .valueError
  | some _ => .error .typeError

/-- Models the field-copying loop of `Article._extract_sections` (lines
300–306) followed by the pydantic constructor `SectionType(**section_data)`:
for each name in `section_fields v` the value is `header.get(field)` —
except `publication_date`, which is `to_datetime(header["pub_date"],
sep=";")` and can raise during the loop, before any validation error.
Validation failures of the constructor are merged into one
`validationError` (pydantic collects them into a single raised
`ValidationError`). -/
def mkSection (v : Variant) (h : Dict) : Except Err Sect :=
  match v with
  | .text => (reqStr (dget h "text")).map Sect.text
  | .title => (reqStr (dget h "text")).map Sect.title
  | .lead => (reqStr (dget h "text")).map Sect.lead
  | .header => do
    let lv ← reqInt (dget h "level")
    let tx ← reqStr (dget h "text")
    pure (Sect.header lv tx)
  | .image => do
    let url ← reqUrl (dget h "url")
    let alt ← optStr (dget h "alt")
    let cap ← optStr (dget h "caption")
    let src ← optStr (dget h "source")
    pure (Sect.image url alt cap src)
  | .media => do
    let pub ← parsePubDate h
    let sid ← reqStr (dget h "id")
    let url ← reqUrl (dget h "url")
    let th ← optUrl (dget h "thumbnail")
    let cap ← optStr (dget h "caption")
    let au ← optStr (dget h "author")
    let md ← optDatetimeAbsent (dget h "modification_date")
    let du ← optInt (dget h "duration")
    pure (Sect.media sid url th cap au pub md du)

/-- The per-item media index `image_media_data`: a Python dict keyed by the
raw `id` values of the media records.  Prepending a binding models the
overwriting assignment `image_media_data[media["id"]] = media`, since
lookup takes the first hit. -/
abbrev MediaIndex := List (JVal × Dict)

/-- Python dict lookup in the media index, with key equality as `==`. -/
def alookup (idx : MediaIndex) (k : JVal) : Option Dict :=
  (idx.find? (fun p => jvalBeq p.1 k)).map (fun p => p.2)

/-- The indexing loop of `Article._fetch_media_details`:
`image_media_data[media["id"]] = media` for each record.  A record without
an `id` key raises `KeyError`; a record whose `id` is a list or dict raises
`TypeError` (unhashable key). -/
def buildIndex : List Dict → MediaIndex → Except Err MediaIndex
  | [], acc => .ok acc
  | m :: ms, acc =>
    match dgetOpt m "id" with
    | none => .error .keyError
    | some (.jarr _) => .error .typeError
    | some (.jobj _) => .error .typeError
    | some k => buildIndex ms ((k, m) :: acc)

/-- Models `Article._fetch_media_details(session, article_id)`, with the body
the media endpoint would deliver passed explicitly: `none` is a failed
`fetch` (the method logs and returns `None`), `some records` a JSON array
of record objects, which is folded into the index. -/
def fetch_media_details (mediaFetch : Option (List Dict)) :
    Except Err (Option MediaIndex) :=
  match mediaFetch with
  | none => .ok none
  | some records => (buildIndex records []).map some

/-- The Python test `image_media_data == {}`, which is true both for the
initial `{}` and for an index built from an empty media list. -/
def memoIsEmptyDict : Option MediaIndex → Bool
  | some [] => true
  | _ => false

/-- Models one iteration of the `for header in section_headers` loop of
`Article._extract_sections` (lines 280–307).  The first component is the
outcome for this descriptor — an exception, a skip (`ok none`, the
`continue` taken when the media fetch failed), or a constructed section —
paired with the updated `image_media_data`; the second component records
whether `_fetch_media_details` was invoked during this iteration. -/
def process_header (mediaFetch : Option (List Dict)) (h : Dict)
    (memo : Option MediaIndex) :
    Except Err (Option Sect × Option MediaIndex) × Bool :=
  match dgetOpt h "type" with
  | none => (.error .keyError, false)
  | some t0 =>
    match map_section t0 with
    | none => (.error .typeError, false)
    | some v0 =>
      if v0 = .media ∨ v0 = .image then
        match
          (if memoIsEmptyDict memo then (fetch_media_details mediaFetch, true)
           else (.ok memo, false)) with
        | (.error e, f) => (.error e, f)
        | (.ok none, f) => (.ok (none, none), f)
        | (.ok (some idx), f) =>
          match alookup idx (dget h "id") with
          | none => (.error .keyError, f)
          | some rec =>
            match dgetOpt (dupdate h rec) "type" with
            | none => (.error .keyError, f)
            | some t1 =>
              match map_section t1 with
              | none => (.error .typeError, f)
              | some v1 =>
                match mkSection v1 (dupdate h rec) with
                | .error e => (.error e, f)
                | .ok s => (.ok (some s, some idx), f)
      else
        match mkSection v0 h with
        | .error e => (.error e, false)
        | .ok s => (.ok (some s, memo), false)

/-- Prepending the freshly constructed section (`sections.append(section)`
seen from the head of the remaining fold) to a loop result, letting a later
exception pass through. -/
def consFst (s : Sect) : Except Err (List Sect) × Nat →
    Except Err (List Sect) × Nat
  | (.ok l, c) => (.ok (s :: l), c)
  | (.error e, c) => (.error e, c)

/-- The whole `for` loop of `Article._extract_sections`, threading the
`image_media_data` memo and counting `_fetch_media_details` invocations.
An exception in any iteration aborts the loop (and with it the enclosing
item resolution). -/
def extract_sections_go (mediaFetch : Option (List Dict)) :
    List Dict → Option MediaIndex → Nat → Except Err (List Sect) × Nat
  | [], _, cnt => (.ok [], cnt)
  | h :: hs, memo, cnt =>
    match process_header mediaFetch h memo with
    | (.error e, f) => (.error e, cnt + cond f 1 0)
    | (.ok (none, memo2), f) =>
      extract_sections_go mediaFetch hs memo2 (cnt + cond f 1 0)
    | (.ok (some s, memo2), f) =>
      consFst s (extract_sections_go mediaFetch hs memo2 (cnt + cond f 1 0))

/-- Models `Article._extract_sections(session, section_headers, article_id)`:
`image_media_data` starts out as `{}` and no fetch has happened yet.  The
second component is the number of `_fetch_media_details` calls the run
performed (the call-count instrumentation of spec section 8). -/
def extract_sections (mediaFetch : Option (List Dict)) (hs : List Dict) :
    Except Err (List Sect) × Nat :=
  extract_sections_go mediaFetch hs (some []) 0

/-- Models lines 186–191 of `Article._extract_details` together with the
pydantic validation of the `Optional[Set[str]]` fields `categories`/`tags`:
`cat = response.get("category")` and `detail["categories"] = set(cat) if cat
else cat`.  An absent or `null` source yields `None`; an empty list is falsy,
so the list itself is stored and pydantic turns it into the empty set; a
non-empty list becomes the set of its (str-coerced) elements.  Non-list,
non-null sources fall outside the payload contract (spec section 6 declares
`category?`/`tag?` as lists) and are modelled as a validation failure. -/
def pySetField (v : JVal) : Except Err (Option (Finset String)) :=
  match v with
  | .jnull => .ok none
  | .jarr [] => .ok (some ∅)
  | .jarr l =>
    match l.mapM coerceStr with
    | some es => .ok (some es.toFinset)
    | none => .error .validationError
  | _ => .error .validationError

/-- The `categories` field a resolved Article would carry, from the raw
detail payload. -/
def article_categories (response : Dict) : Except Err (Option (Finset String)) :=
  pySetField (dget response "category")

/-- The `tags` field a resolved Article would carry, from the raw detail
payload. -/
def article_tags (response : Dict) : Except Err (Option (Finset String)) :=
  pySetField (dget response "tag")

/-- Renders `pad n width`-style zero-padded decimal fields the way
`datetime.isoformat` does, for values within the field width. -/
def pad2 (n : Nat) : String :=
  if n < 10 then "0" ++ toString n else toString n

/-- Four-digit zero-padded year. -/
def pad4 (n : Nat) : String :=
  if n < 10 then "000" ++ toString n
  else if n < 100 then "00" ++ toString n
  else if n < 1000 then "0" ++ toString n
  else toString n

/-- Six-digit zero-padded microsecond field. -/
def pad6 (n : Nat) : String :=
  if n < 10 then "00000" ++ toString n
  else if n < 100 then "0000" ++ toString n
  else if n < 1000 then "000" ++ toString n
  else if n < 10000 then "00" ++ toString n
  else if n < 100000 then "0" ++ toString n
  else toString n

/-- Models `datetime.now().isoformat()`:
`YYYY-MM-DDTHH:MM:SS[.ffffff]`, the fractional part present exactly when the
microsecond field is nonzero. -/
def isoformat (d : DateTime) (micro : Nat) : String :=
  (pad4 d.year ++ "-" ++ pad2 d.month ++ "-" ++ pad2 d.day) ++ "T" ++
  (pad2 d.hour ++ ":" ++ pad2 d.minute ++ ":" ++ pad2 d.second ++
   (if micro = 0 then "" else "." ++ pad6 micro))

/-- Models lines 196–197 of `Article._extract_details`:
`mod_date = response.get("mod_date", datetime.now().isoformat())` followed by
`detail["modification_date"] = to_datetime(mod_date)` — note the default
separator `:` of `to_datetime`, not the `;` used for `pub_date`.  The
resolution instant (`datetime.now()`) is passed in explicitly as `now` plus
its microsecond field. -/
def extract_modification_date (response : Dict) (now : DateTime)
    (nowMicro : Nat) : Except Err DateTime :=
  match dgetOpt response "mod_date" with
  | none =>
    match to_datetime (isoformat now nowMicro) ':' with
    | some d => .ok d
    | none => .error .valueError
  | some (.jstr s) =>
    match to_datetime s ':' with
    | some d => .ok d
    | none => .error .valueError
  | some _ => .error .typeError

/-- Specification-side trace of the per-descriptor mapping outcomes of one
`_extract_sections` run: for each raw descriptor, in payload order, either
`some` constructed section or `none` for a skipped one.  It threads the very
same `process_header` and memo as the implementation, and is meaningful for
runs that raise no exception (an exception truncates the trace, but such
runs produce no section list anyway). -/
def section_outcomes (mediaFetch : Option (List Dict)) :
    List Dict → Option MediaIndex → List (Option Sect)
  | [], _ => []
  | h :: hs, memo =>
    match process_header mediaFetch h memo with
    | (.error _, _) => []
    | (.ok (os, memo2), _) => os :: section_outcomes mediaFetch hs memo2

/-- The invariant `datetime.strptime` guarantees of any instant it returns
for the formats at hand: every field lies in its calendar range. -/
def validInstant (d : DateTime) : Prop :=
  1 ≤ d.year ∧ d.year ≤ 9999 ∧ 1 ≤ d.month ∧ d.month ≤ 12 ∧ 1 ≤ d.day ∧
  d.day ≤ daysInMonth d.year d.month ∧ d.hour ≤ 23 ∧ d.minute ≤ 59 ∧
  d.second ≤ 59

/-! ## Helper lemmas about the temporal codec -/

theorem digitVal_some {c : Char} {x : Nat} (h : digitVal c = some x) :
    isDigitChar c = true ∧ x ≤ 9 := by
  unfold digitVal at h
  by_cases hd : isDigitChar c
  · refine ⟨hd, ?_⟩
    simp [hd] at h
    simp [isDigitChar] at hd
    omega
  · simp [hd] at h

theorem mem_fourDigit {p : Nat × List Char} {cs : List Char}
    (h : p ∈ fourDigit cs) :
    p.1 ≤ 9999 ∧
    ∃ pre, cs = pre ++ p.2 ∧ ∀ c ∈ pre, isDigitChar c = true := by
  match cs with
  | [] => simp [fourDigit] at h
  | [a] => simp [fourDigit] at h
  | [a, b] => simp [fourDigit] at h
  | [a, b, c] => simp [fourDigit] at h
  | a :: b :: c :: d :: rest =>
    simp only [fourDigit] at h
    cases ha : digitVal a <;> rw [ha] at h <;>
      cases hb : digitVal b <;> rw [hb] at h <;>
        cases hc : digitVal c <;> rw [hc] at h <;>
          cases hd : digitVal d <;> rw [hd] at h <;>
            simp at h
    obtain ⟨hwa1, hwa⟩ := digitVal_some ha
    obtain ⟨hwb1, hwb⟩ := digitVal_some hb
    obtain ⟨hwc1, hwc⟩ := digitVal_some hc
    obtain ⟨hwd1, hwd⟩ := digitVal_some hd
    subst h
    refine ⟨by simp; omega, [a, b, c, d], by simp, ?_⟩
    intro ch hch
    simp at hch
    rcases hch with rfl | rfl | rfl | rfl
    · exact hwa1
    · exact hwb1
    · exact hwc1
    · exact hwd1

theorem mem_twoDigit {lo hi : Nat} {p : Nat × List Char} {cs : List Char}
    (h : p ∈ twoDigit lo hi cs) :
    lo ≤ p.1 ∧ p.1 ≤ hi ∧
    ∃ pre, cs = pre ++ p.2 ∧ ∀ c ∈ pre, isDigitChar c = true := by
  match cs with
  | [] => simp [twoDigit] at h
  | [a] => simp [twoDigit] at h
  | a :: b :: rest =>
    simp only [twoDigit] at h
    cases ha : digitVal a <;> rw [ha] at h <;>
      cases hb : digitVal b <;> rw [hb] at h <;> simp at h
    obtain ⟨⟨hlo, hhi⟩, hp⟩ := h
    subst hp
    refine ⟨hlo, hhi, [a, b], by simp, ?_⟩
    intro ch hch
    simp at hch
    rcases hch with rfl | rfl
    · exact (digitVal_some ha).1
    · exact (digitVal_some hb).1

theorem mem_oneDigit {lo hi : Nat} {p : Nat × List Char} {cs : List Char}
    (h : p ∈ oneDigit lo hi cs) :
    lo ≤ p.1 ∧ p.1 ≤ hi ∧
    ∃ pre, cs = pre ++ p.2 ∧ ∀ c ∈ pre, isDigitChar c = true := by
  match cs with
  | [] => simp [oneDigit] at h
  | a :: rest =>
    simp only [oneDigit] at h
    cases ha : digitVal a <;> rw [ha] at h <;> simp at h
    obtain ⟨⟨hlo, hhi⟩, hp⟩ := h
    subst hp
    refine ⟨hlo, hhi, [a], by simp, ?_⟩
    intro ch hch
    simp at hch
    subst hch
    exact (digitVal_some ha).1

theorem mem_numField {lo2 hi2 lo1 hi1 : Nat} {p : Nat × List Char}
    {cs : List Char} (h : p ∈ numField lo2 hi2 lo1 hi1 cs) :
    ((lo2 ≤ p.1 ∧ p.1 ≤ hi2) ∨ (lo1 ≤ p.1 ∧ p.1 ≤ hi1)) ∧
    ∃ pre, cs = pre ++ p.2 ∧ ∀ c ∈ pre, isDigitChar c = true := by
  unfold numField at h
  rcases List.mem_append.mp h with h2 | h1
  · obtain ⟨ha, hb, pre, hc, hd⟩ := mem_twoDigit h2
    exact ⟨Or.inl ⟨ha, hb⟩, pre, hc, hd⟩
  · obtain ⟨ha, hb, pre, hc, hd⟩ := mem_oneDigit h1
    exact ⟨Or.inr ⟨ha, hb⟩, pre, hc, hd⟩

theorem mem_expectChar {ch : Char} {r : List Char} {cs : List Char}
    (h : r ∈ expectChar ch cs) : cs = ch :: r := by
  match cs with
  | [] => simp [expectChar] at h
  | x :: rest =>
    simp only [expectChar] at h
    split at h
    · simp at h
      simp_all
    · simp at h

theorem mem_of_head_some {α : Type} {l : List α} {a : α}
    (h : l.head? = some a) : a ∈ l := by
  cases l <;> simp_all

theorem mem_strptimeMatches {t : Nat × Nat × Nat × Nat × Nat × Nat}
    {cs : List Char} {sep : Char} (h : t ∈ strptimeMatches cs sep) :
    (t.1 ≤ 9999 ∧ 1 ≤ t.2.1 ∧ t.2.1 ≤ 12 ∧ 1 ≤ t.2.2.1 ∧ t.2.2.1 ≤ 31 ∧
     t.2.2.2.1 ≤ 23 ∧ t.2.2.2.2.1 ≤ 59 ∧ t.2.2.2.2.2 ≤ 61) ∧
    ∀ c ∈ cs, isDigitChar c = true ∨ c = '-' ∨ c = sep := by
  unfold strptimeMatches at h
  simp only [List.mem_flatMap] at h
  obtain ⟨p1, hp1, h⟩ := h
  obtain ⟨r2, hr2, h⟩ := h
  obtain ⟨p3, hp3, h⟩ := h
  obtain ⟨r4, hr4, h⟩ := h
  obtain ⟨p5, hp5, h⟩ := h
  obtain ⟨r6, hr6, h⟩ := h
  obtain ⟨p7, hp7, h⟩ := h
  obtain ⟨r8, hr8, h⟩ := h
  obtain ⟨p9, hp9, h⟩ := h
  obtain ⟨r10, hr10, h⟩ := h
  obtain ⟨p11, hp11, h⟩ := h
  split at h
  case isFalse => simp at h
  case isTrue hend =>
  simp at h
  subst h
  obtain ⟨hy, pre1, heq1, hdig1⟩ := mem_fourDigit hp1
  have he2 := mem_expectChar hr2
  obtain ⟨hb3, pre3, heq3, hdig3⟩ := mem_numField hp3
  have he4 := mem_expectChar hr4
  obtain ⟨hb5, pre5, heq5, hdig5⟩ := mem_numField hp5
  have he6 := mem_expectChar hr6
  obtain ⟨hb7, pre7, heq7, hdig7⟩ := mem_numField hp7
  have he8 := mem_expectChar hr8
  obtain ⟨hb9, pre9, heq9, hdig9⟩ := mem_numField hp9
  have he10 := mem_expectChar hr10
  obtain ⟨hb11, pre11, heq11, hdig11⟩ := mem_numField hp11
  constructor
  · simp only
    refine ⟨hy, ?_, ?_, ?_, ?_, ?_⟩ <;> omega
  · intro c hc
    rw [heq1, he2, heq3, he4, heq5, he6, heq7, he8, heq9, he10, heq11,
      hend] at hc
    simp only [List.mem_append, List.mem_cons, List.append_nil] at hc
    rcases hc with h1 | rfl | h3 | rfl | h5 | rfl | h7 | rfl | h9 | rfl | h11
    · exact Or.inl (hdig1 c h1)
    · exact Or.inr (Or.inl rfl)
    · exact Or.inl (hdig3 c h3)
    · exact Or.inr (Or.inl rfl)
    · exact Or.inl (hdig5 c h5)
    · exact Or.inr (Or.inl rfl)
    · exact Or.inl (hdig7 c h7)
    · exact Or.inr (Or.inr rfl)
    · exact Or.inl (hdig9 c h9)
    · exact Or.inr (Or.inr rfl)
    · exact Or.inl (hdig11 c h11)

theorem to_datetime_sound {s : String} {sep : Char} {d : DateTime}
    (h : to_datetime s sep = some d) :
    validInstant d ∧
    ∀ c ∈ s.toList, isDigitChar c = true ∨ c = '-' ∨ c = sep := by
  unfold to_datetime at h
  cases hm : (strptimeMatches s.toList sep).head? <;> rw [hm] at h
  · simp at h
  case some t =>
  obtain ⟨y, mo, da, hh, mi, se⟩ := t
  obtain ⟨hbounds, hchars⟩ := mem_strptimeMatches (mem_of_head_some hm)
  simp only at h hbounds
  split at h
  case isFalse => simp at h
  case isTrue hv =>
  simp at h
  subst h
  exact ⟨⟨hv.1, hbounds.1, hbounds.2.1, hbounds.2.2.1, hbounds.2.2.2.1,
    hv.2.1, hbounds.2.2.2.2.2.1, hbounds.2.2.2.2.2.2.1, hv.2.2⟩, hchars⟩

theorem to_datetime_isoformat_none (d : DateTime) (micro : Nat) :
    to_datetime (isoformat d micro) ':' = none := by
  cases hm : to_datetime (isoformat d micro) ':' with
  | none => rfl
  | some dt =>
    exfalso
    obtain ⟨hv, hchars⟩ := to_datetime_sound hm
    have hT : 'T' ∈ (isoformat d micro).toList := by
      show 'T' ∈ (isoformat d micro).data
      unfold isoformat
      rw [String.data_append, String.data_append]
      exact List.mem_append_left _ (List.mem_append_right _ (by decide))
    rcases hchars 'T' hT with h1 | h2 | h3
    · simp [isDigitChar] at h1
    · simp at h2
    · simp at h3

/-! ## Helper lemmas about the section-mapping pipeline -/

theorem sectVariant_mkSection {v : Variant} {h : Dict} {s : Sect}
    (hm : mkSection v h = .ok s) : sectVariant s = v := by
  cases v <;>
    simp only [mkSection, Except.map, bind, Except.bind, pure, Except.pure]
      at hm <;>
    (repeat' split at hm) <;>
    first
      | exact Except.noConfusion hm
      | (injection hm with hm2; subst hm2; rfl)

theorem alookup_nil (k : JVal) : alookup [] k = none := by
  simp [alookup]

theorem memoIsEmptyDict_some_cons (k : JVal) (r : Dict) (idx : MediaIndex) :
    memoIsEmptyDict (some ((k, r) :: idx)) = false := rfl

theorem alookup_some_ne_nil {idx : MediaIndex} {k : JVal} {r : Dict}
    (h : alookup idx k = some r) : memoIsEmptyDict (some idx) = false := by
  cases idx with
  | nil => simp [alookup] at h
  | cons p l => rfl

/-- With a memo that is not `{}` (already resolved, or a failed fetch), an
iteration never invokes the media fetch and never changes the memo. -/
theorem process_header_stable {mf : Option (List Dict)} {h : Dict}
    {memo : Option MediaIndex} (hm : memoIsEmptyDict memo = false) :
    (process_header mf h memo).2 = false ∧
    ∀ os memo2, (process_header mf h memo).1 = .ok (os, memo2) →
      memoIsEmptyDict memo2 = false := by
  cases ht : dgetOpt h "type" with
  | none => simp [process_header, ht]
  | some t0 =>
    cases hv : map_section t0 with
    | none => simp [process_header, ht, hv]
    | some v0 =>
      by_cases hmedia : v0 = Variant.media ∨ v0 = Variant.image
      · cases memo with
        | none =>
          simp [process_header, ht, hv, hmedia, memoIsEmptyDict]
        | some idx =>
          cases hl : alookup idx (dget h "id") with
          | none => simp [process_header, ht, hv, hmedia, hm, hl]
          | some rec =>
            cases ht1 : dgetOpt (dupdate h rec) "type" with
            | none => simp [process_header, ht, hv, hmedia, hm, hl, ht1]
            | some t1 =>
              cases hv1 : map_section t1 with
              | none =>
                simp [process_header, ht, hv, hmedia, hm, hl, ht1, hv1]
              | some v1 =>
                cases hs : mkSection v1 (dupdate h rec) with
                | error e =>
                  simp [process_header, ht, hv, hmedia, hm, hl, ht1, hv1, hs]
                | ok s =>
                  simp only [process_header, ht, hv, hmedia, if_true, hm,
                    Bool.false_eq_true, if_false, hl, ht1, hv1, hs]
                  refine ⟨trivial, ?_⟩
                  intro os memo2 hok
                  simp at hok
                  rw [← hok.2]
                  exact hm
      · cases hs : mkSection v0 h with
        | error e => simp [process_header, ht, hv, hmedia, hs]
        | ok s =>
          simp only [process_header, ht, hv, hmedia, if_false]
          simp only [hs]
          refine ⟨trivial, ?_⟩
          intro os memo2 hok
          simp at hok
          rw [← hok.2]
          exact hm

/-- If the run count is already settled (memo not `{}`), the remaining loop
performs no further media fetch. -/
theorem go_count_stable (mf : Option (List Dict)) (hs : List Dict) :
    ∀ memo cnt, memoIsEmptyDict memo = false →
      (extract_sections_go mf hs memo cnt).2 = cnt := by
  induction hs with
  | nil => intro memo cnt _; rfl
  | cons h t ih =>
    intro memo cnt hm
    obtain ⟨hf, hnext⟩ := @process_header_stable mf h memo hm
    unfold extract_sections_go
    cases hp : process_header mf h memo with
    | mk r f =>
      rw [hp] at hf
      subst hf
      cases r with
      | error e => rfl
      | ok pr =>
        obtain ⟨os, memo2⟩ := pr
        have hm2 : memoIsEmptyDict memo2 = false := by
          apply hnext os memo2
          rw [hp]
        cases os with
        | none => simpa using ih memo2 (cnt + cond false 1 0) hm2
        | some s =>
          show (consFst s
            (extract_sections_go mf t memo2 (cnt + cond false 1 0))).2 = cnt
          have hcount := ih memo2 (cnt + cond false 1 0) hm2
          cases hrec : extract_sections_go mf t memo2 (cnt + cond false 1 0) with
          | mk rr cc =>
            rw [hrec] at hcount
            cases rr <;> simpa [consFst] using hcount

/-- Only the literal `some []` state satisfies `memoIsEmptyDict`. -/
theorem memoIsEmptyDict_true {memo : Option MediaIndex}
    (hm : memoIsEmptyDict memo = true) : memo = some [] := by
  cases memo with
  | none => simp [memoIsEmptyDict] at hm
  | some idx =>
    cases idx with
    | nil => rfl
    | cons p l => simp [memoIsEmptyDict] at hm

theorem memoIsEmptyDict_nil_eq : memoIsEmptyDict (some []) = true := rfl

theorem memoIsEmptyDict_none_eq : memoIsEmptyDict none = false := rfl

/-- An iteration that starts from the `{}` memo and completes without raising
either leaves the memo provably non-`{}`, or did not fetch and left the memo
unchanged (the descriptor was not an Image/Media one). -/
theorem process_header_empty {mf : Option (List Dict)} {h : Dict}
    {memo : Option MediaIndex} (hm : memoIsEmptyDict memo = true) :
    ∀ os memo2, (process_header mf h memo).1 = .ok (os, memo2) →
      memoIsEmptyDict memo2 = false ∨
      ((process_header mf h memo).2 = false ∧ memo2 = memo) := by
  have hmm := memoIsEmptyDict_true hm
  subst hmm
  intro os memo2 hok
  cases ht : dgetOpt h "type"
  · rw [show (process_header mf h (some [])).1 = Except.error .keyError by
      simp [process_header, ht]] at hok
    exact Except.noConfusion hok
  case some t0 =>
  cases hv : map_section t0
  · rw [show (process_header mf h (some [])).1 = Except.error .typeError by
      simp [process_header, ht, hv]] at hok
    exact Except.noConfusion hok
  case some v0 =>
  by_cases hmedia : v0 = Variant.media ∨ v0 = Variant.image
  · cases hf : fetch_media_details mf with
    | error e =>
      rw [show (process_header mf h (some [])).1 = Except.error e by
        simp [process_header, ht, hv, hmedia, memoIsEmptyDict_nil_eq, hf]]
        at hok
      exact Except.noConfusion hok
    | ok oidx =>
      cases oidx with
      | none =>
        rw [show (process_header mf h (some [])).1 =
            Except.ok ((none : Option Sect), (none : Option MediaIndex)) by
          simp [process_header, ht, hv, hmedia, memoIsEmptyDict_nil_eq, hf]]
          at hok
        injection hok with hok2
        injection hok2 with hos hmemo
        rw [← hmemo]
        exact Or.inl memoIsEmptyDict_none_eq
      | some idx =>
        cases hl : alookup idx (dget h "id") with
        | none =>
          rw [show (process_header mf h (some [])).1 = Except.error .keyError
              by
            simp [process_header, ht, hv, hmedia, memoIsEmptyDict_nil_eq,
              hf, hl]] at hok
          exact Except.noConfusion hok
        | some rec =>
          cases ht1 : dgetOpt (dupdate h rec) "type" with
          | none =>
            rw [show (process_header mf h (some [])).1 =
                Except.error .keyError by
              simp [process_header, ht, hv, hmedia, memoIsEmptyDict_nil_eq,
                hf, hl, ht1]] at hok
            exact Except.noConfusion hok
          | some t1 =>
            cases hv1 : map_section t1 with
            | none =>
              rw [show (process_header mf h (some [])).1 =
                  Except.error .typeError by
                simp [process_header, ht, hv, hmedia, memoIsEmptyDict_nil_eq,
                  hf, hl, ht1, hv1]] at hok
              exact Except.noConfusion hok
            | some v1 =>
              cases hs : mkSection v1 (dupdate h rec) with
              | error e =>
                rw [show (process_header mf h (some [])).1 = Except.error e
                    by
                  simp [process_header, ht, hv, hmedia,
                    memoIsEmptyDict_nil_eq, hf, hl, ht1, hv1, hs]] at hok
                exact Except.noConfusion hok
              | ok s =>
                rw [show (process_header mf h (some [])).1 =
                    Except.ok (some s, some idx) by
                  simp [process_header, ht, hv, hmedia,
                    memoIsEmptyDict_nil_eq, hf, hl, ht1, hv1, hs]] at hok
                injection hok with hok2
                injection hok2 with hos hmemo
                rw [← hmemo]
                exact Or.inl (alookup_some_ne_nil hl)
  · cases hs : mkSection v0 h with
    | error e =>
      rw [show (process_header mf h (some [])).1 = Except.error e by
        simp [process_header, ht, hv, hmedia, hs]] at hok
      exact Except.noConfusion hok
    | ok s =>
      rw [show (process_header mf h (some [])).1 = Except.ok (some s, some [])
          by
        simp [process_header, ht, hv, hmedia, hs]] at hok
      injection hok with hok2
      injection hok2 with hos hmemo
      refine Or.inr ⟨?_, hmemo.symm⟩
      simp [process_header, ht, hv, hmedia, hs]

theorem cond_le_one (f : Bool) : cond f 1 0 ≤ 1 := by
  cases f <;> simp

/-- Mapping a descriptor of a known non-Image/Media variant ignores the media
fetch and the memo completely: the outcome is `mkSection` on the raw
descriptor alone, no fetch happens, and the memo is passed through. -/
theorem process_header_non_media {mf : Option (List Dict)} {h : Dict}
    {memo : Option MediaIndex} {t0 : JVal} {v0 : Variant}
    (ht : dgetOpt h "type" = some t0) (hv : map_section t0 = some v0)
    (hni : v0 ≠ Variant.image) (hnm : v0 ≠ Variant.media) :
    process_header mf h memo =
      ((mkSection v0 h).map (fun s => (some s, memo)), false) := by
  have hmedia : ¬(v0 = Variant.media ∨ v0 = Variant.image) := by tauto
  cases hs : mkSection v0 h <;>
    simp [process_header, ht, hv, hmedia, hs, Except.map]

/-- Mapping an Image/Media descriptor when the media endpoint fails: whether
the failed fetch happens now (memo `{}`) or already happened (memo `None`),
the iteration skips the section and leaves the memo failed. -/
theorem process_header_media_nofetch {h : Dict} {memo : Option MediaIndex}
    {t0 : JVal} {v0 : Variant}
    (ht : dgetOpt h "type" = some t0) (hv : map_section t0 = some v0)
    (hmedia : v0 = Variant.media ∨ v0 = Variant.image)
    (hmm : memo = none ∨ memo = some []) :
    process_header none h memo =
      (.ok (none, none), memoIsEmptyDict memo) := by
  rcases hmm with rfl | rfl
  · simp [process_header, ht, hv, hmedia, memoIsEmptyDict_none_eq]
  · simp [process_header, ht, hv, hmedia, memoIsEmptyDict_nil_eq,
      fetch_media_details]

/-- Mapping an Image/Media descriptor whose `id` is found in a successfully
fetched index (fetched during this first encounter): the descriptor is merged
with the record, the variant re-resolved from the merged `type`, and the
section constructed from the merged data. -/
theorem process_header_media_found {mf : Option (List Dict)} {h : Dict}
    {t0 : JVal} {v0 : Variant} {idx : MediaIndex} {rec : Dict}
    {t1 : JVal} {v1 : Variant}
    (ht : dgetOpt h "type" = some t0) (hv : map_section t0 = some v0)
    (hmedia : v0 = Variant.media ∨ v0 = Variant.image)
    (hf : fetch_media_details mf = .ok (some idx))
    (hl : alookup idx (dget h "id") = some rec)
    (ht1 : dgetOpt (dupdate h rec) "type" = some t1)
    (hv1 : map_section t1 = some v1) :
    process_header mf h (some []) =
      ((mkSection v1 (dupdate h rec)).map (fun s => (some s, some idx)),
        true) := by
  cases hs : mkSection v1 (dupdate h rec) <;>
    simp [process_header, ht, hv, hmedia, memoIsEmptyDict_nil_eq, hf, hl,
      ht1, hv1, hs, Except.map]

/-- A nonempty index state is not the `{}` memo. -/
theorem memoIsEmptyDict_of_ne_nil {idx : MediaIndex} (h : idx ≠ []) :
    memoIsEmptyDict (some idx) = false := by
  cases idx with
  | nil => exact absurd rfl h
  | cons p l => rfl

/-- A run with a failed (or never-needed) media endpoint and a completed
result contains no Image or Media section. -/
theorem go_none_no_media (hs : List Dict) :
    ∀ memo cnt l c, (memo = none ∨ memo = some []) →
      extract_sections_go none hs memo cnt = (.ok l, c) →
      ∀ s ∈ l, sectVariant s ≠ Variant.image ∧
        sectVariant s ≠ Variant.media := by
  induction hs with
  | nil =>
    intro memo cnt l c hmm hgo
    unfold extract_sections_go at hgo
    injection hgo with h1 h2
    injection h1 with h3
    rw [← h3]
    simp
  | cons h t ih =>
    intro memo cnt l c hmm hgo
    unfold extract_sections_go at hgo
    cases ht : dgetOpt h "type"
    · rw [show process_header none h memo = (.error .keyError, false) by
        simp [process_header, ht]] at hgo
      simp at hgo
    case some t0 =>
    cases hv : map_section t0
    · rw [show process_header none h memo = (.error .typeError, false) by
        simp [process_header, ht, hv]] at hgo
      simp at hgo
    case some v0 =>
    by_cases hmedia : v0 = Variant.media ∨ v0 = Variant.image
    · rw [process_header_media_nofetch ht hv hmedia hmm] at hgo
      exact ih none _ l c (Or.inl rfl) hgo
    · rw [process_header_non_media ht hv (fun hc => hmedia (Or.inr hc))
        (fun hc => hmedia (Or.inl hc))] at hgo
      cases hmk : mkSection v0 h with
      | error e =>
        rw [hmk] at hgo
        simp [Except.map] at hgo
      | ok s0 =>
        rw [hmk] at hgo
        simp only [Except.map] at hgo
        have hgo2 : consFst s0
            (extract_sections_go none t memo (cnt + cond false 1 0)) =
            (Except.ok l, c) := hgo
        cases hr : extract_sections_go none t memo (cnt + cond false 1 0) with
        | mk rr cc =>
          rw [hr] at hgo2
          cases rr with
          | error e => simp [consFst] at hgo2
          | ok l2 =>
            simp only [consFst] at hgo2
            injection hgo2 with h1 h2
            injection h1 with h3
            rw [← h3]
            intro s hsmem
            rcases List.mem_cons.mp hsmem with rfl | hmem
            · rw [sectVariant_mkSection hmk]
              constructor
              · intro hc
                exact hmedia (Or.inr hc)
              · intro hc
                exact hmedia (Or.inl hc)
            · exact ih memo _ l2 cc hmm hr s hmem

/-- A completed (exception-free) run returns exactly the successful outcomes
of the per-descriptor trace, in order. -/
theorem go_ok_outcomes (mf : Option (List Dict)) (hs : List Dict) :
    ∀ memo cnt l c, extract_sections_go mf hs memo cnt = (.ok l, c) →
      l = (section_outcomes mf hs memo).reduceOption := by
  induction hs with
  | nil =>
    intro memo cnt l c hgo
    unfold extract_sections_go at hgo
    injection hgo with h1 h2
    injection h1 with h3
    rw [← h3]
    simp [section_outcomes]
  | cons h t ih =>
    intro memo cnt l c hgo
    unfold extract_sections_go at hgo
    cases hp : process_header mf h memo with
    | mk r f =>
      rw [hp] at hgo
      cases r with
      | error e => simp at hgo
      | ok pr =>
        obtain ⟨os, memo2⟩ := pr
        cases os with
        | none =>
          have hrec := ih memo2 _ l c hgo
          rw [hrec]
          simp [section_outcomes, hp]
        | some s =>
          have hgo2 : consFst s
              (extract_sections_go mf t memo2 (cnt + cond f 1 0)) =
              (Except.ok l, c) := hgo
          cases hr : extract_sections_go mf t memo2 (cnt + cond f 1 0) with
          | mk rr cc =>
            rw [hr] at hgo2
            cases rr with
            | error e => simp [consFst] at hgo2
            | ok l2 =>
              simp only [consFst] at hgo2
              injection hgo2 with h1 h2
              injection h1 with h3
              rw [← h3]
              have hrec := ih memo2 _ l2 cc hr
              rw [hrec]
              simp [section_outcomes, hp]

/-- Any run of the section loop performs at most one media fetch beyond the
count it starts from. -/
theorem go_count_le (mf : Option (List Dict)) (hs : List Dict) :
    ∀ memo cnt, (extract_sections_go mf hs memo cnt).2 ≤ cnt + 1 := by
  induction hs with
  | nil => intro memo cnt; simp [extract_sections_go]
  | cons h t ih =>
    intro memo cnt
    by_cases hm : memoIsEmptyDict memo = true
    · unfold extract_sections_go
      cases hp : process_header mf h memo with
      | mk r f =>
        cases r with
        | error e =>
          simp only
          have := cond_le_one f
          omega
        | ok pr =>
          obtain ⟨os, memo2⟩ := pr
          have hcase := process_header_empty hm os memo2 (by rw [hp])
          rw [hp] at hcase
          simp only at hcase
          rcases hcase with hstable | ⟨hf, hmemo⟩
          · have hrec := go_count_stable mf t memo2 (cnt + cond f 1 0) hstable
            cases os with
            | none =>
              simp only
              rw [hrec]
              have := cond_le_one f
              omega
            | some s =>
              show (consFst s
                (extract_sections_go mf t memo2 (cnt + cond f 1 0))).2 ≤
                cnt + 1
              cases hr : extract_sections_go mf t memo2 (cnt + cond f 1 0) with
              | mk rr cc =>
                rw [hr] at hrec
                simp at hrec
                subst hrec
                have := cond_le_one f
                cases rr <;> simp [consFst] <;> omega
          · subst hf
            subst hmemo
            simp only [cond, Nat.add_zero]
            cases os with
            | none => exact ih memo2 cnt
            | some s =>
              show (consFst s (extract_sections_go mf t memo2 cnt)).2 ≤
                cnt + 1
              have hrec := ih memo2 cnt
              cases hr : extract_sections_go mf t memo2 cnt with
              | mk rr cc =>
                rw [hr] at hrec
                cases rr <;> simpa [consFst] using hrec
    · have hm2 : memoIsEmptyDict memo = false := by
        cases hmm : memoIsEmptyDict memo
        · rfl
        · exact absurd hmm hm
      rw [go_count_stable mf (h :: t) memo cnt hm2]
      omega

theorem pySetField_cons {l : List JVal} {es : List String} (hne : l ≠ [])
    (hmap : l.mapM coerceStr = some es) :
    pySetField (JVal.jarr l) = .ok (some es.toFinset) := by
  cases l with
  | nil => exact absurd rfl hne
  | cons a as =>
    simp only [pySetField]
    rw [hmap]

/-! ## Claim theorems -/

/-- C1: for every item resolution, the media index fetch
(`_fetch_media_details`) is performed at most once, no matter how many
Image/Media sections the raw section list contains and no matter what the
media endpoint returns: the fetch count of a whole `_extract_sections` run
never exceeds one. -/
theorem C1_media_fetch_at_most_once (mediaFetch : Option (List Dict))
    (hs : List Dict) : (extract_sections mediaFetch hs).2 ≤ 1 := by
  have hle := go_count_le mediaFetch hs (some []) 0
  simpa [extract_sections] using hle

/-- C2 counterexample: a section list whose first descriptor has the unknown
type `"foo"`, followed by a well-formed title section.  The claim predicts
the unknown section is silently skipped and resolution continues, producing
the title section; the code instead raises a `TypeError` (it subscripts the
`None` that `_map_section` returns for an unknown discriminator), aborting
the whole run with no section list at all. -/
theorem C2_counterexample :
    (extract_sections none
      [[("type", JVal.jstr "foo")],
       [("type", JVal.jstr "title"), ("text", JVal.jstr "T")]]).1 =
      .error .typeError ∧
    (extract_sections none
      [[("type", JVal.jstr "foo")],
       [("type", JVal.jstr "title"), ("text", JVal.jstr "T")]]).1 ≠
      .ok [Sect.title "T"] := by
  refine ⟨rfl, fun hc => ?_⟩
  rw [show (extract_sections none
      [[("type", JVal.jstr "foo")],
       [("type", JVal.jstr "title"), ("text", JVal.jstr "T")]]).1 =
      Except.error Err.typeError from rfl] at hc
  exact Except.noConfusion hc

/-- C2 amended: a raw descriptor whose `type` discriminator is not one of the
six known variants makes the section loop raise a `TypeError` the moment it
is reached, aborting the enclosing item resolution: the section is not
skipped, no section list is produced, and no further descriptor is
processed. -/
theorem C2_amended_unknown_type_aborts (mediaFetch : Option (List Dict))
    (h : Dict) (t0 : JVal) (rest : List Dict) (memo : Option MediaIndex)
    (cnt : Nat) (ht : dgetOpt h "type" = some t0)
    (hv : map_section t0 = none) :
    extract_sections_go mediaFetch (h :: rest) memo cnt =
      (.error .typeError, cnt) := by
  unfold extract_sections_go
  rw [show process_header mediaFetch h memo = (.error .typeError, false) by
    simp [process_header, ht, hv]]
  rfl

/-- C2 amended claim, witness: a one-descriptor run with type `"foo"` aborts
with a `TypeError` and performs no media fetch. -/
theorem C2_amended_unknown_type_aborts_witness :
    extract_sections_go none [[("type", JVal.jstr "foo")]] (some []) 0 =
      (.error .typeError, 0) :=
  C2_amended_unknown_type_aborts none [("type", JVal.jstr "foo")]
    (JVal.jstr "foo") [] (some []) 0 rfl rfl

/-- C3: when the media index fetch fails (the resolver returns `None`), no
Image or Media section instance is constructed — a completed run contains no
section of those variants — while a section of any other known type is
mapped exactly as it would be with any media fetch outcome and any memo
state: its outcome is `mkSection` on the raw descriptor alone.  The middle
conjunct shows the Image/Media descriptors are skipped (outcome `ok none`)
rather than failing the item. -/
theorem C3_media_failure_degrades_gracefully :
    (∀ hs l c, extract_sections none hs = (.ok l, c) →
      ∀ s ∈ l, sectVariant s ≠ Variant.image ∧ sectVariant s ≠ Variant.media)
    ∧ (∀ h t0 v0 memo, dgetOpt h "type" = some t0 →
        map_section t0 = some v0 →
        (v0 = Variant.media ∨ v0 = Variant.image) →
        (memo = none ∨ memo = some []) →
        process_header none h memo =
          (.ok (none, none), memoIsEmptyDict memo))
    ∧ (∀ mf h t0 v0 memo, dgetOpt h "type" = some t0 →
        map_section t0 = some v0 → v0 ≠ Variant.image →
        v0 ≠ Variant.media →
        process_header mf h memo =
          ((mkSection v0 h).map (fun s => (some s, memo)), false)) := by
  refine ⟨?_, ?_, ?_⟩
  · intro hs l c hgo
    exact go_none_no_media hs (some []) 0 l c (Or.inr rfl) hgo
  · intro h t0 v0 memo ht hv hm hmm
    exact process_header_media_nofetch ht hv hm hmm
  · intro mf h t0 v0 memo ht hv hni hnm
    exact process_header_non_media ht hv hni hnm

/-- C3 witness: a concrete failed-media run keeps the title section, which is
neither an Image nor a Media section. -/
theorem C3_media_failure_degrades_gracefully_witness :
    sectVariant (Sect.title "T") ≠ Variant.image ∧
    sectVariant (Sect.title "T") ≠ Variant.media :=
  C3_media_failure_degrades_gracefully.1
    [[("type", JVal.jstr "title"), ("text", JVal.jstr "T")],
     [("type", JVal.jstr "image"), ("id", JVal.jstr "m1")]]
    [Sect.title "T"] 1 rfl (Sect.title "T") (List.mem_singleton.mpr rfl)

/-- C4 (code bug): for a detail payload that omits `mod_date`, the claim says
resolution succeeds with the modification instant defaulted to the
resolution time; instead the code feeds `datetime.now().isoformat()` (an
ISO string with a `T` separator) to `to_datetime`, whose format expects a
`-` there, so a `ValueError` is raised and the item resolution fails — for
every payload without a `mod_date` key and every resolution instant. -/
theorem C4_missing_mod_date_raises (response : Dict) (now : DateTime)
    (nowMicro : Nat) (habs : dgetOpt response "mod_date" = none) :
    extract_modification_date response now nowMicro =
      .error .valueError := by
  simp [extract_modification_date, habs, to_datetime_isoformat_none]

/-- C4 witness: a concrete payload without `mod_date` at a concrete
resolution instant raises the `ValueError`. -/
theorem C4_missing_mod_date_raises_witness :
    extract_modification_date [("id", JVal.jstr "a1")]
      (DateTime.mk 2026 10 12 9 30 0) 123456 = .error .valueError :=
  C4_missing_mod_date_raises [("id", JVal.jstr "a1")]
    (DateTime.mk 2026 10 12 9 30 0) 123456 rfl

/-- C5 (code bug): `fetch` returns `None` for a transport error and for any
non-success status — but a body-parse error on a success status is raised to
the caller (the `response.json()` call sits outside the `try`), contradicting
the claim (and the function docstring) that `fetch` never raises and yields
`None` on every error. -/
theorem C5_fetch_body_parse_error_raises :
    fetch HttpOutcome.transportError = .ok none ∧
    fetch (HttpOutcome.status 404 (.ok (JVal.jstr "x"))) = .ok none ∧
    fetch (HttpOutcome.status 500 (.error .valueError)) = .ok none ∧
    fetch (HttpOutcome.status 200 (.error .valueError)) =
      .error .valueError ∧
    fetch (HttpOutcome.status 200 (.ok (JVal.jstr "x"))) =
      .ok (some (JVal.jstr "x")) :=
  ⟨rfl, rfl, rfl, rfl, rfl⟩

/-- C6 counterexample: a detail payload whose `category` value is the empty
list.  The claim predicts the resolved categories field is `None`; the code
stores the falsy empty list itself, which pydantic validates into the empty
set — so the field is the empty set, not `None`. -/
theorem C6_counterexample :
    article_categories [("category", JVal.jarr [])] =
      .ok (some (∅ : Finset String)) ∧
    (Except.ok (some (∅ : Finset String)) :
      Except Err (Option (Finset String))) ≠ .ok none := by
  refine ⟨rfl, fun hc => ?_⟩
  injection hc with h1
  exact Option.noConfusion h1

/-- C6 amended: an absent (or `null`) `category`/`tag` source yields an
absent (`None`) field; an empty source list yields the empty set (not
`None`); a present non-empty list yields the set of its (string-coerced)
elements. -/
theorem C6_amended_categories_tags (response : Dict) :
    (dget response "category" = JVal.jnull →
      article_categories response = .ok none) ∧
    (dget response "category" = JVal.jarr [] →
      article_categories response = .ok (some ∅)) ∧
    (∀ l es, dget response "category" = JVal.jarr l → l ≠ [] →
      l.mapM coerceStr = some es →
      article_categories response = .ok (some es.toFinset)) ∧
    (dget response "tag" = JVal.jnull →
      article_tags response = .ok none) ∧
    (dget response "tag" = JVal.jarr [] →
      article_tags response = .ok (some ∅)) ∧
    (∀ l es, dget response "tag" = JVal.jarr l → l ≠ [] →
      l.mapM coerceStr = some es →
      article_tags response = .ok (some es.toFinset)) := by
  refine ⟨?_, ?_, ?_, ?_, ?_, ?_⟩
  · intro heq
    unfold article_categories
    rw [heq]
    rfl
  · intro heq
    unfold article_categories
    rw [heq]
    rfl
  · intro l es heq hne hmap
    unfold article_categories
    rw [heq]
    exact pySetField_cons hne hmap
  · intro heq
    unfold article_tags
    rw [heq]
    rfl
  · intro heq
    unfold article_tags
    rw [heq]
    rfl
  · intro l es heq hne hmap
    unfold article_tags
    rw [heq]
    exact pySetField_cons hne hmap

/-- C6 amended claim, witness: a concrete one-element category list resolves
to the singleton set. -/
theorem C6_amended_categories_tags_witness :
    article_categories [("category", JVal.jarr [JVal.jstr "news"])] =
      .ok (some (["news"].toFinset)) :=
  (C6_amended_categories_tags
    [("category", JVal.jarr [JVal.jstr "news"])]).2.2.1
    [JVal.jstr "news"] ["news"] rfl (by simp) rfl

/-- C7: for an Image or Media raw section whose `id` is found in the fetched
media index, the constructed section comes from `mkSection` applied to the
merge of the raw descriptor with the media record; every key of the merged
data prefers the record value (falling back to the descriptor), and the
variant is re-resolved from the merged `type`, which is the record `type`
whenever the record carries one (so an image reference may construct a
different variant than the raw discriminator suggested). -/
theorem C7_media_merge_record_precedence
    (mf : Option (List Dict)) (h rec : Dict) (idx : MediaIndex)
    (t0 t1 : JVal) (v0 v1 : Variant)
    (ht : dgetOpt h "type" = some t0) (hv : map_section t0 = some v0)
    (hmedia : v0 = Variant.media ∨ v0 = Variant.image)
    (hf : fetch_media_details mf = .ok (some idx))
    (hl : alookup idx (dget h "id") = some rec)
    (ht1 : dgetOpt (dupdate h rec) "type" = some t1)
    (hv1 : map_section t1 = some v1) :
    process_header mf h (some []) =
      ((mkSection v1 (dupdate h rec)).map (fun s => (some s, some idx)),
        true) ∧
    (∀ k, dgetOpt (dupdate h rec) k =
      (dgetOpt rec k).orElse (fun _ => dgetOpt h k)) ∧
    (∀ rt, dgetOpt rec "type" = some rt → t1 = rt) := by
  refine ⟨process_header_media_found ht hv hmedia hf hl ht1 hv1,
    fun k => dgetOpt_dupdate h rec k, ?_⟩
  intro rt hrt
  rw [dgetOpt_dupdate h rec "type", hrt] at ht1
  simp [Option.orElse] at ht1
  exact ht1.symm

/-- C7 witness: the end-to-end example of spec section 8 — an image reference
`m1` merged with its media record constructs the Image section from the
record data. -/
theorem C7_media_merge_record_precedence_witness :
    process_header
      (some [[("id", JVal.jstr "m1"), ("type", JVal.jstr "image"),
        ("url", JVal.jstr "https://x/y.jpg"), ("alt", JVal.jstr "A")]])
      [("type", JVal.jstr "image"), ("id", JVal.jstr "m1")] (some []) =
    ((mkSection Variant.image
        (dupdate [("type", JVal.jstr "image"), ("id", JVal.jstr "m1")]
          [("id", JVal.jstr "m1"), ("type", JVal.jstr "image"),
           ("url", JVal.jstr "https://x/y.jpg"),
           ("alt", JVal.jstr "A")])).map
      (fun s => (some s,
        some [(JVal.jstr "m1",
          [("id", JVal.jstr "m1"), ("type", JVal.jstr "image"),
           ("url", JVal.jstr "https://x/y.jpg"),
           ("alt", JVal.jstr "A")])])), true) :=
  (C7_media_merge_record_precedence
    (some [[("id", JVal.jstr "m1"), ("type", JVal.jstr "image"),
      ("url", JVal.jstr "https://x/y.jpg"), ("alt", JVal.jstr "A")]])
    [("type", JVal.jstr "image"), ("id", JVal.jstr "m1")]
    [("id", JVal.jstr "m1"), ("type", JVal.jstr "image"),
     ("url", JVal.jstr "https://x/y.jpg"), ("alt", JVal.jstr "A")]
    [(JVal.jstr "m1",
      [("id", JVal.jstr "m1"), ("type", JVal.jstr "image"),
       ("url", JVal.jstr "https://x/y.jpg"), ("alt", JVal.jstr "A")])]
    (JVal.jstr "image") (JVal.jstr "image") Variant.image Variant.image
    rfl rfl (Or.inr rfl) rfl rfl rfl rfl).1

/-- C8: parseInstant applied to "2020-07-08-20;50;43" with separator ";" is
exactly the instant 2020-07-08T20:50:43; a wrong time separator and a wrong
field count are failures; and every successful parse, for every input and
separator, is a validated calendar instant — never a silent default. -/
theorem C8_parse_instant :
    to_datetime "2020-07-08-20;50;43" ';' =
      some (DateTime.mk 2020 7 8 20 50 43) ∧
    to_datetime "2020-07-08-20:50:43" ';' = none ∧
    to_datetime "2020-07-08-20;50" ';' = none ∧
    (∀ s sep d, to_datetime s sep = some d → validInstant d) := by
  refine ⟨by decide, by decide, by decide, ?_⟩
  intro s sep d hd
  exact (to_datetime_sound hd).1

/-- C8 witness: the parsed example instant satisfies the calendar-validity
invariant. -/
theorem C8_parse_instant_witness :
    validInstant (DateTime.mk 2020 7 8 20 50 43) :=
  C8_parse_instant.2.2.2 "2020-07-08-20;50;43" ';'
    (DateTime.mk 2020 7 8 20 50 43) C8_parse_instant.1

/-- C9: a successfully resolved section list is exactly the sequence of
successful per-descriptor outcomes, in raw payload order: skipped
descriptors are dropped from the trace without failing the item and without
disturbing the order of the others. -/
theorem C9_sections_order_preserved (mf : Option (List Dict))
    (hs : List Dict) (l : List Sect) (c : Nat)
    (hok : extract_sections mf hs = (.ok l, c)) :
    l = (section_outcomes mf hs (some [])).reduceOption :=
  go_ok_outcomes mf hs (some []) 0 l c hok

/-- C9 witness: a concrete run in which a failed media fetch skips the image
descriptor, leaving the title sections in order. -/
theorem C9_sections_order_preserved_witness :
    [Sect.title "T", Sect.title "U"] =
      (section_outcomes none
        [[("type", JVal.jstr "title"), ("text", JVal.jstr "T")],
         [("type", JVal.jstr "image"), ("id", JVal.jstr "m1")],
         [("type", JVal.jstr "title"), ("text", JVal.jstr "U")]]
        (some [])).reduceOption :=
  C9_sections_order_preserved none
    [[("type", JVal.jstr "title"), ("text", JVal.jstr "T")],
     [("type", JVal.jstr "image"), ("id", JVal.jstr "m1")],
     [("type", JVal.jstr "title"), ("text", JVal.jstr "U")]]
    [Sect.title "T", Sect.title "U"] 1 rfl

/-- C10 (implicit behaviour): an Image/Media descriptor whose `id` is absent
or not a key of the successfully fetched media index raises a `KeyError`
that aborts the whole section loop — whether the index is fetched at this
descriptor (first conjunct) or was already fetched (second conjunct); the
section is not skipped and no section list is produced. -/
theorem C10_missing_media_id_aborts
    (mf : Option (List Dict)) (h : Dict) (t0 : JVal) (v0 : Variant)
    (ht : dgetOpt h "type" = some t0) (hv : map_section t0 = some v0)
    (hmedia : v0 = Variant.media ∨ v0 = Variant.image) :
    (∀ idx, fetch_media_details mf = .ok (some idx) →
      alookup idx (dget h "id") = none →
      ∀ rest cnt, extract_sections_go mf (h :: rest) (some []) cnt =
        (.error .keyError, cnt + 1)) ∧
    (∀ idx, idx ≠ [] → alookup idx (dget h "id") = none →
      ∀ rest cnt, extract_sections_go mf (h :: rest) (some idx) cnt =
        (.error .keyError, cnt)) := by
  constructor
  · intro idx hf hl rest cnt
    unfold extract_sections_go
    rw [show process_header mf h (some []) = (.error .keyError, true) by
      simp [process_header, ht, hv, hmedia, memoIsEmptyDict_nil_eq, hf, hl]]
    rfl
  · intro idx hne hl rest cnt
    unfold extract_sections_go
    rw [show process_header mf h (some idx) = (.error .keyError, false) by
      simp [process_header, ht, hv, hmedia,
        memoIsEmptyDict_of_ne_nil hne, hl]]
    rfl

/-- C10 witness: an image descriptor without an `id` key, against a media
index that has no `null` key, aborts the run with a `KeyError` right after
the one successful fetch. -/
theorem C10_missing_media_id_aborts_witness :
    extract_sections_go
      (some [[("id", JVal.jstr "m1"), ("type", JVal.jstr "image"),
        ("url", JVal.jstr "https://x/y.jpg")]])
      [[("type", JVal.jstr "image")]] (some []) 0 =
      (.error .keyError, 1) :=
  (C10_missing_media_id_aborts
    (some [[("id", JVal.jstr "m1"), ("type", JVal.jstr "image"),
      ("url", JVal.jstr "https://x/y.jpg")]])
    [("type", JVal.jstr "image")] (JVal.jstr "image") Variant.image
    rfl rfl (Or.inr rfl)).1
    [(JVal.jstr "m1",
      [("id", JVal.jstr "m1"), ("type", JVal.jstr "image"),
       ("url", JVal.jstr "https://x/y.jpg")])]
    rfl rfl [] 0

end SimpleDataMapping
